import Mathlib

/-!
Shallow embedding of `pymagnitude/third_party/allennlp/commands/fine_tune.py`,
specifically the orchestration function `fine_tune_model` (lines 132-259).

The configuration tree ("Params") is modelled as an association list of
string keys to values; sections are consumed destructively by popping keys,
mirroring `Params.pop`.  External collaborators (dataset construction,
vocabulary extension, the regex engine, the trainer, evaluation) are opaque
oracles supplied in a `Collab` record; the workflow emits a trace of
observable events (directory creation, file writes, warnings, logs,
collaborator invocations) and returns an outcome (the mutated model plus
metrics, or an error together with the model state at the raise point).
-/

set_option autoImplicit false

namespace FineTune

/-- Values of the configuration tree.  `Params.from_file` produces nested
dictionaries of scalars, lists and sub-dictionaries; the shapes needed by
`fine_tune_model` are nested trees, strings, booleans and string lists. -/
inductive PVal where
  | tree : List (String × PVal) → PVal
  | str : String → PVal
  | bool : Bool → PVal
  | strList : List String → PVal
  | null : PVal

/-- A configuration tree level: string keys mapped to values, mirroring the
dictionary held by an allennlp `Params` object. -/
abbrev Params := List (String × PVal)

/-- Modelled from the spec: Python truthiness of a configuration value, as
used by `if params.pop('model', None):` (line 174) and
`vocabulary_params.get('directory_path', None)` (line 179).  A missing value
(`None`), an empty mapping, an empty string, `False` and an empty list are
falsy; everything else is truthy. -/
def PVal.truthy : PVal → Bool
  | .tree l => !l.isEmpty
  | .str s => !s.isEmpty
  | .bool b => b
  | .strList l => !l.isEmpty
  | .null => false

/-- Truthiness of an optional value (`None` is falsy). -/
def optTruthy : Option PVal → Bool
  | none => false
  | some v => v.truthy

/-- First value bound to key `k`, if any (dictionary lookup). -/
def lookupKey {α : Type} (k : String) : List (String × α) → Option α
  | [] => none
  | kv :: rest => if kv.1 = k then some kv.2 else lookupKey k rest

/-- Modelled from the spec: destructive `Params.pop(key)` — returns the value
bound to `key` (if any) together with the configuration with that binding
removed.  Sections are "popped as they are used" (spec section 3). -/
def popKey (k : String) : Params → Option PVal × Params
  | [] => (none, [])
  | kv :: rest =>
    if kv.1 = k then (some kv.2, rest)
    else ((popKey k rest).1, kv :: (popKey k rest).2)

/-- `.get(key, None)` on a configuration sub-tree; a non-tree value has no
keys. -/
def pvalGet (v : PVal) (k : String) : Option PVal :=
  match v with
  | .tree l => lookupKey k l
  | _ => none

/-- A dataset instance (opaque to the orchestrator). -/
abbrev Instance := String

/-- A dataset: an iterable of instances. -/
abbrev Dataset := List Instance

/-- The dataset collection returned by `datasets_from_params`: a mapping
from split name to dataset (line 183). -/
abbrev Datasets := List (String × Dataset)

/-- The model's vocabulary (opaque token store; only identity and the
extension call matter to the orchestrator). -/
abbrev Vocab := List String

/-- `model.named_parameters()` with each parameter's `requires_grad` flag
(`true` = gradient tracking enabled). -/
abbrev ParamFlags := List (String × Bool)

/-- The metrics document: string keys to scalar values (line 233, 245-248). -/
abbrev Metrics := List (String × ℚ)

/-- The loaded model bundle: vocabulary plus named parameters, both mutated
in place by the workflow. -/
structure Model where
  vocab : Vocab
  parameters : ParamFlags

/-- Result of the opaque `trainer.train()` call (line 233): normal
completion with metrics, a `KeyboardInterrupt` (carrying whether the
`_DEFAULT_WEIGHTS` checkpoint file exists in the serialization directory at
the moment the interrupt is caught, line 236), or any other exception. -/
inductive TrainRes where
  | ok : Metrics → TrainRes
  | interrupt : Bool → TrainRes
  | fail : TrainRes

/-- Opaque collaborators of `fine_tune_model`:
`dfp` is `datasets_from_params` (line 183), which may consume further
configuration keys and may fail; `extendFn` is
`vocab.extend_from_instances` (line 194); `research` is `re.search`
(line 211) as a relation between a pattern and a parameter name;
`trainRes` is the behavior of `trainer.train()` (line 233); `evalMetrics`
is the metrics dictionary returned by `evaluate` (line 246). -/
structure Collab where
  dfp : Params → Except Unit (Params × Datasets)
  extendFn : PVal → Vocab → List Instance → Vocab
  research : String → String → Bool
  trainRes : TrainRes
  evalMetrics : Metrics

/-- Observable events of a run, in program order. -/
inductive Event where
  | prepareEnvironment
  | makedirs (dir : String)
  | prepareGlobalLogging
  | writeConfigFile (snapshot : Params)
  | warnIgnoringModelSection
  | warnIgnoringVocabDirectoryPath
  | datasetsFromParams
  | logExtendingVocab (sources : List String)
  | saveVocabulary (v : Vocab)
  | indexIterator
  | logFrozenTunable (frozen tunable : List String)
  | constructTrainer
  | train
  | archiveModel
  | evaluate
  | logEvaluateHint
  | writeMetricsFile (m : Metrics)
  | logMetrics (m : Metrics)

/-- Error conditions raised by the workflow (all `ConfigurationError`-class
unless noted): non-empty serialization directory (line 164), dataset
construction failure (propagated, line 183), invalid vocab source
(line 191), a required key missing from the configuration (`Params.pop`
without default), an ill-typed value, leftover unconsumed keys
(`assert_empty`, line 231), missing `train` split (`KeyError`, line 204),
`KeyboardInterrupt` re-raised (line 240), and any other trainer failure. -/
inductive Err where
  | dirNotEmpty
  | datasetsFailed
  | invalidVocabSource
  | missingKey (k : String)
  | badValue (k : String)
  | extraKeys (ks : List String)
  | missingTrain
  | keyboardInterrupt
  | trainerError

/-- Outcome of a run: the fine-tuned model and the metrics document, or an
error together with the model state at the moment of the raise. -/
inductive Outcome where
  | ok (model : Model) (metrics : Metrics)
  | err (e : Err) (modelState : Model)

/-- Dictionary assignment `metrics[key] = value`: overwrite an existing
binding or append a new one. -/
def metricsAssign (m : Metrics) (k : String) (v : ℚ) : Metrics :=
  if (lookupKey k m).isSome then
    m.map (fun kv => if kv.1 = k then (k, v) else kv)
  else m ++ [(k, v)]

/-- The generator of line 195-197: every instance of every dataset whose
split name is among the requested vocab-creation sources, in dataset
order. -/
def instancesFor (sources : List String) (allDs : Datasets) : List Instance :=
  (allDs.map (fun kv => if sources.contains kv.1 then kv.2 else [])).flatten

/-- The parameter-freezing loop of lines 210-212: a parameter whose
fully-qualified name matches (by unanchored `re.search`, abstracted as
`research`) any pattern of the `no_grad` list has `requires_grad_(False)`
applied; all other parameters are left untouched. -/
def applyNoGrad (research : String → String → Bool) (regexes : List String)
    (ps : ParamFlags) : ParamFlags :=
  ps.map (fun np => if regexes.any (fun r => research r np.1) then (np.1, false) else np)

/-- Modelled from the spec: `get_frozen_and_tunable_parameter_names`
(line 215, defined outside `src/`) — the names of the parameters whose
gradient tracking is disabled, in parameter order. -/
def frozenParameterNames (ps : ParamFlags) : List String :=
  (ps.filter (fun np => !np.2)).map Prod.fst

/-- Modelled from the spec: `get_frozen_and_tunable_parameter_names`
(line 215, defined outside `src/`) — the names of the parameters whose
gradient tracking is enabled, in parameter order. -/
def tunableParameterNames (ps : ParamFlags) : List String :=
  (ps.filter (fun np => np.2)).map Prod.fst

/-- The configuration remaining after line 174 and line 178 popped the
`model` and `vocabulary` sections. -/
def afterWarnPops (params : Params) : Params :=
  (popKey "vocabulary" (popKey "model" params).2).2

/-- The `vocabulary` section popped at line 178 (defaulting to an empty
tree, as `params.pop('vocabulary', {})`). -/
def vocabSectionOf (params : Params) : PVal :=
  ((popKey "vocabulary" (popKey "model" params).2).1).getD (PVal.tree [])

/-- Line 187: `set(params.pop("datasets_for_vocab_creation", all_datasets))`
— the requested vocab-creation split names (defaulting to every split of
the dataset collection) together with the remaining configuration; `none`
when the key holds a value that is not a list of names. -/
def dvcRequested (p3 : Params) (allDs : Datasets) : Option (List String × Params) :=
  match (popKey "datasets_for_vocab_creation" p3).1 with
  | none => some (allDs.map Prod.fst, (popKey "datasets_for_vocab_creation" p3).2)
  | some (PVal.strList ns) => some (ns, (popKey "datasets_for_vocab_creation" p3).2)
  | some _ => none

/-- Modelled from the spec: `trainer_params.pop("no_grad", ())` (line 209)
via the allennlp `Params` class (outside `src/`): the pattern list if
present (empty when absent), failing on a `trainer` section that is not a
tree or a `no_grad` value that is not a list of patterns. -/
def popNoGrad : PVal → Except Err (List String × PVal)
  | PVal.tree l =>
    match (popKey "no_grad" l).1 with
    | none => .ok ([], PVal.tree (popKey "no_grad" l).2)
    | some (PVal.strList rs) => .ok (rs, PVal.tree (popKey "no_grad" l).2)
    | some _ => .error (.badValue "no_grad")
  | _ => .error (.badValue "trainer")

/-- Modelled from the spec: `params.pop_bool("evaluate_on_test", False)`
(line 230) via the allennlp `Params` class (outside `src/`): a boolean flag
read with default `false`, accepting the strings "true"/"false". -/
def popBoolKey (k : String) (ps : Params) : Except Err (Bool × Params) :=
  match (popKey k ps).1 with
  | none => .ok (false, (popKey k ps).2)
  | some (PVal.bool b) => .ok (b, (popKey k ps).2)
  | some (PVal.str s) =>
    if s = "true" then .ok (true, (popKey k ps).2)
    else if s = "false" then .ok (false, (popKey k ps).2)
    else .error (.badValue k)
  | some _ => .error (.badValue k)

/-- The events of lines 162-181 on the non-aborting path: environment
preparation, directory creation, logging setup, the configuration snapshot
write, and the two conditional ignore warnings. -/
def startupEvents (params : Params) (sd : String) : List Event :=
  [Event.prepareEnvironment, Event.makedirs sd, Event.prepareGlobalLogging,
   Event.writeConfigFile params]
    ++ (if optTruthy (popKey "model" params).1 then [Event.warnIgnoringModelSection] else [])
    ++ (if optTruthy (pvalGet (vocabSectionOf params) "directory_path")
        then [Event.warnIgnoringVocabDirectoryPath] else [])

/-- Lines 162-181: `prepare_environment` (modelled from the spec as ambient
seeding/device setup with no configuration mutation, being defined outside
`src/`), the non-empty-serialization-directory check (lines 163-165),
`os.makedirs` (line 167), `prepare_global_logging` (line 168), the
configuration snapshot write to `CONFIG_NAME` (lines 170-172), and the two
ignore warnings for the `model` section (lines 174-176) and a truthy
`vocabulary.directory_path` (lines 178-181).  Returns the emitted events
and, unless the run aborts, the popped `vocabulary` section and the
remaining configuration. -/
def startupStep (params : Params) (sd : String) (dirExists dirNonempty : Bool) :
    List Event × Option (PVal × Params) :=
  if dirExists && dirNonempty then ([Event.prepareEnvironment], none)
  else
    (startupEvents params sd, some (vocabSectionOf params, afterWarnPops params))

/-- Lines 186-197 under `extend_vocab`: read the requested vocab-creation
splits, fail with a `ConfigurationError` if any requested split is absent
from the dataset collection (lines 189-191), otherwise log and extend the
vocabulary in place from the instances of the requested splits
(lines 193-197).  Without `extend_vocab` the vocabulary and configuration
pass through untouched. -/
def vocabExtendGo (f : PVal → Vocab → List Instance → Vocab) (vocabParams : PVal)
    (vocab : Vocab) (allDs : Datasets) (ns : List String) (p4 : Params) :
    List Event × Except Err (Vocab × Params) :=
  if ns.all (fun d => (lookupKey d allDs).isSome) then
    ([Event.logExtendingVocab ns], .ok (f vocabParams vocab (instancesFor ns allDs), p4))
  else ([], .error .invalidVocabSource)

/-- Dispatch of lines 186-197 on the `extend_vocab` flag; see
`vocabExtendGo`. -/
def vocabCreationStep (f : PVal → Vocab → List Instance → Vocab) (extendVocab : Bool)
    (vocabParams : PVal) (vocab : Vocab) (p3 : Params) (allDs : Datasets) :
    List Event × Except Err (Vocab × Params) :=
  if extendVocab then
    match dvcRequested p3 allDs with
    | none => ([], .error (.badValue "datasets_for_vocab_creation"))
    | some nsp4 => vocabExtendGo f vocabParams vocab allDs nsp4.1 nsp4.2
  else ([], .ok (vocab, p3))

/-- Lines 201-231: pop the `iterator` section (failing when absent) and
index the iterator with the vocabulary (lines 201-202), look up the
mandatory `train` split and the optional `test` split (lines 204-206), pop
the `trainer` section and its `no_grad` patterns (lines 208-209), apply the
freezing loop and log the frozen/tunable partition (lines 210-221),
construct the trainer (line 223), pop `evaluate_on_test` (line 230) and
fail on leftover unconsumed keys (`assert_empty`, line 231).  Returns the
emitted events and, on success, the frozen parameter flags, the
`evaluate_on_test` flag and the test split. -/
def trainerSetupStep (research : String → String → Bool) (allDs : Datasets)
    (mparams : ParamFlags) (p4 : Params) :
    List Event × Except Err (ParamFlags × Bool × Option Dataset) :=
  match (popKey "iterator" p4).1 with
  | none => ([], .error (.missingKey "iterator"))
  | some _ =>
    match lookupKey "train" allDs with
    | none => ([Event.indexIterator], .error .missingTrain)
    | some _ =>
      match (popKey "trainer" (popKey "iterator" p4).2).1 with
      | none => ([Event.indexIterator], .error (.missingKey "trainer"))
      | some trainerVal =>
        match popNoGrad trainerVal with
        | .error e => ([Event.indexIterator], .error e)
        | .ok ngr =>
          let mp2 := applyNoGrad research ngr.1 mparams
          let t := [Event.indexIterator,
                    Event.logFrozenTunable (frozenParameterNames mp2) (tunableParameterNames mp2),
                    Event.constructTrainer]
          match popBoolKey "evaluate_on_test"
              (popKey "trainer" (popKey "iterator" p4).2).2 with
          | .error e => (t, .error e)
          | .ok er =>
            if er.2.isEmpty then (t, .ok (mp2, er.1, lookupKey "test" allDs))
            else (t, .error (.extraKeys (er.2.map Prod.fst)))

/-- Lines 183-231 after the startup block: dataset construction (line 183),
optional vocabulary extension (lines 186-197), the unconditional vocabulary
save (line 199) and the iterator/trainer setup up to `assert_empty`
(lines 201-231). -/
def setupAfterStartup (c : Collab) (model : Model) (extendVocab : Bool)
    (vocabParams : PVal) (p2 : Params) :
    List Event × Except (Err × Model) (Model × Bool × Option Dataset) :=
  match c.dfp p2 with
  | .error _ => ([Event.datasetsFromParams], .error (.datasetsFailed, model))
  | .ok pd =>
    let vc := vocabCreationStep c.extendFn extendVocab vocabParams model.vocab pd.1 pd.2
    match vc.2 with
    | .error e => (Event.datasetsFromParams :: vc.1, .error (e, model))
    | .ok vp4 =>
      let model2 : Model := ⟨vp4.1, model.parameters⟩
      let ts := trainerSetupStep c.research pd.2 model2.parameters vp4.2
      let t := Event.datasetsFromParams :: vc.1 ++ Event.saveVocabulary vp4.1 :: ts.1
      match ts.2 with
      | .error e => (t, .error (e, model2))
      | .ok r => (t, .ok (⟨model2.vocab, r.1⟩, r.2.1, r.2.2))

/-- Everything of `fine_tune_model` before `trainer.train()` is invoked
(lines 162-231). -/
def fineTuneSetup (c : Collab) (model : Model) (params : Params) (sd : String)
    (dirExists dirNonempty extendVocab : Bool) :
    List Event × Except (Err × Model) (Model × Bool × Option Dataset) :=
  match (startupStep params sd dirExists dirNonempty).2 with
  | none => ((startupStep params sd dirExists dirNonempty).1, .error (.dirNotEmpty, model))
  | some vp =>
    ((startupStep params sd dirExists dirNonempty).1
       ++ (setupAfterStartup c model extendVocab vp.1 vp.2).1,
     (setupAfterStartup c model extendVocab vp.1 vp.2).2)

/-- Lines 232-259: invoke `trainer.train()`; on `KeyboardInterrupt` attempt
a partial archive when the weights checkpoint exists, then re-raise
(lines 234-240); on any other trainer failure propagate; on normal
completion archive the results (line 243), optionally evaluate on the test
split and merge `test_`-prefixed metrics (lines 245-248) or log the
evaluation hint (lines 250-252), then write and log `metrics.json`
(lines 254-257). -/
def trainPhase (c : Collab) (m : Model) (evaluateOnTest : Bool)
    (testData : Option Dataset) : List Event × Outcome :=
  match c.trainRes with
  | .interrupt w =>
    (Event.train :: (if w then [Event.archiveModel] else []), .err .keyboardInterrupt m)
  | .fail => ([Event.train], .err .trainerError m)
  | .ok trainMetrics =>
    match testData with
    | some td =>
      if !td.isEmpty && evaluateOnTest then
        let metrics := c.evalMetrics.foldl
          (fun acc kv => metricsAssign acc ("test_" ++ kv.1) kv.2) trainMetrics
        ([Event.train, Event.archiveModel, Event.evaluate,
          Event.writeMetricsFile metrics, Event.logMetrics metrics], .ok m metrics)
      else if !td.isEmpty then
        ([Event.train, Event.archiveModel, Event.logEvaluateHint,
          Event.writeMetricsFile trainMetrics, Event.logMetrics trainMetrics],
         .ok m trainMetrics)
      else
        ([Event.train, Event.archiveModel,
          Event.writeMetricsFile trainMetrics, Event.logMetrics trainMetrics],
         .ok m trainMetrics)
    | none =>
      ([Event.train, Event.archiveModel,
        Event.writeMetricsFile trainMetrics, Event.logMetrics trainMetrics],
       .ok m trainMetrics)

/-- The full `fine_tune_model` workflow (lines 132-259): the setup phase
followed by training, archival, optional evaluation and the metrics
write. -/
def fineTuneModel (c : Collab) (model : Model) (params : Params) (sd : String)
    (dirExists dirNonempty extendVocab : Bool) : List Event × Outcome :=
  match (fineTuneSetup c model params sd dirExists dirNonempty extendVocab).2 with
  | .error em =>
    ((fineTuneSetup c model params sd dirExists dirNonempty extendVocab).1,
     .err em.1 em.2)
  | .ok r =>
    ((fineTuneSetup c model params sd dirExists dirNonempty extendVocab).1
       ++ (trainPhase c r.1 r.2.1 r.2.2).1,
     (trainPhase c r.1 r.2.1 r.2.2).2)

/-! ### Auxiliary definitions for stating the properties -/

/-- Events that the setup phase (before `trainer.train()`) can emit. -/
def Event.isSetup : Event → Bool
  | .train => false
  | .archiveModel => false
  | .evaluate => false
  | .logEvaluateHint => false
  | .writeMetricsFile _ => false
  | .logMetrics _ => false
  | _ => true

/-- Recognizer for the ignored-model-section warning. -/
def Event.isWarnModel : Event → Bool
  | .warnIgnoringModelSection => true
  | _ => false

/-- Recognizer for the ignored-vocabulary-directory warning. -/
def Event.isWarnVocab : Event → Bool
  | .warnIgnoringVocabDirectoryPath => true
  | _ => false

/-- Recognizer for the archival call. -/
def Event.isArchive : Event → Bool
  | .archiveModel => true
  | _ => false

/-- Recognizer for the `metrics.json` write. -/
def Event.isMetricsWrite : Event → Bool
  | .writeMetricsFile _ => true
  | _ => false

/-- Concrete vocabulary-extension collaborator used in witnesses: append the
new instances as tokens. -/
def extendConcat : PVal → Vocab → List Instance → Vocab := fun _ v ins => v ++ ins

/-- Concrete regex-search collaborator used in witnesses: a pattern matches
exactly the name equal to it. -/
def researchEq : String → String → Bool := fun r n => r == n

/-- Collaborator bundle used in witnesses: dataset construction consumes no
configuration keys and returns the given dataset collection. -/
def mkCollab (tr : TrainRes) (em : Metrics) (ds : Datasets) : Collab :=
  ⟨fun ps => .ok (ps, ds), extendConcat, researchEq, tr, em⟩

/-- Collaborator bundle whose dataset construction fails. -/
def failDfpCollab : Collab :=
  ⟨fun _ => .error (), extendConcat, researchEq, .ok [], []⟩

/-! ### Basic lemmas about configuration pops -/

theorem popKey_fst (k : String) (ps : Params) : (popKey k ps).1 = lookupKey k ps := by
  induction ps with
  | nil => rfl
  | cons kv rest ih =>
    simp only [popKey, lookupKey]
    split <;> simp [ih]

theorem popKey_none {k : String} {ps : Params} (h : lookupKey k ps = none) :
    popKey k ps = (none, ps) := by
  induction ps with
  | nil => rfl
  | cons kv rest ih =>
    simp only [lookupKey] at h
    simp only [popKey]
    split
    · simp_all
    · simp_all

theorem lookupKey_popKey_ne {a b : String} (ps : Params) (h : a ≠ b) :
    lookupKey a (popKey b ps).2 = lookupKey a ps := by
  induction ps with
  | nil => rfl
  | cons kv rest ih =>
    by_cases hk : kv.1 = b
    · simp only [popKey, if_pos hk, lookupKey]
      rw [if_neg (fun ha => h (ha.symm.trans hk))]
    · simp only [popKey, if_neg hk, lookupKey]
      split
      · rfl
      · exact ih

theorem lookupKey_eq_none {α : Type} {k : String} {ps : List (String × α)}
    (h : k ∉ ps.map Prod.fst) : lookupKey k ps = none := by
  induction ps with
  | nil => rfl
  | cons kv rest ih =>
    simp only [List.map_cons, List.mem_cons, not_or] at h
    simp only [lookupKey]
    rw [if_neg (fun he => h.1 he.symm)]
    exact ih h.2

theorem lookupKey_popKey_self {k : String} {ps : Params}
    (hnd : (ps.map Prod.fst).Nodup) : lookupKey k (popKey k ps).2 = none := by
  induction ps with
  | nil => rfl
  | cons kv rest ih =>
    simp only [List.map_cons, List.nodup_cons] at hnd
    by_cases hk : kv.1 = k
    · simp only [popKey, if_pos hk]
      exact lookupKey_eq_none (hk ▸ hnd.1)
    · simp only [popKey, if_neg hk, lookupKey]
      exact ih hnd.2

theorem isEmpty_false_of_lookup {k : String} {α : Type} {ps : List (String × α)} {v : α}
    (h : lookupKey k ps = some v) : ps.isEmpty = false := by
  cases ps with
  | nil => simp [lookupKey] at h
  | cons kv rest => rfl

theorem popBoolKey_absent {k : String} {ps : Params} (h : lookupKey k ps = none) :
    popBoolKey k ps = .ok (false, ps) := by
  simp [popBoolKey, popKey_none h]

/-! ### Characterization of the events each phase can emit -/

theorem mem_startupStep {params : Params} {sd : String} {de dn : Bool} {e : Event}
    (h : e ∈ (startupStep params sd de dn).1) :
    e = Event.prepareEnvironment ∨ e = Event.makedirs sd ∨ e = Event.prepareGlobalLogging ∨
    e = Event.writeConfigFile params ∨ e = Event.warnIgnoringModelSection ∨
    e = Event.warnIgnoringVocabDirectoryPath := by
  unfold startupStep startupEvents at h
  split at h
  · simp only [List.mem_singleton] at h
    exact Or.inl h
  · simp only [List.append_assoc, List.mem_append, List.mem_cons,
      List.not_mem_nil, or_false] at h
    rcases h with h | h
    · tauto
    rcases h with h | h <;> split at h <;> simp_all <;> tauto

theorem mem_vocabCreationStep {f : PVal → Vocab → List Instance → Vocab}
    {ev : Bool} {vp : PVal} {vo : Vocab} {p3 : Params} {ds : Datasets} {e : Event}
    (h : e ∈ (vocabCreationStep f ev vp vo p3 ds).1) :
    ∃ ns, e = Event.logExtendingVocab ns := by
  unfold vocabCreationStep at h
  split at h
  · split at h
    · simp at h
    · unfold vocabExtendGo at h
      split at h
      · simp only [List.mem_singleton] at h
        exact ⟨_, h⟩
      · simp at h
  · simp at h

theorem mem_trainerSetupStep {research : String → String → Bool} {ds : Datasets}
    {mp : ParamFlags} {p4 : Params} {e : Event}
    (h : e ∈ (trainerSetupStep research ds mp p4).1) :
    e = Event.indexIterator ∨ (∃ a b, e = Event.logFrozenTunable a b) ∨
    e = Event.constructTrainer := by
  unfold trainerSetupStep at h
  split at h
  · simp at h
  · split at h
    · simp only [List.mem_singleton] at h
      exact Or.inl h
    · split at h
      · simp only [List.mem_singleton] at h
        exact Or.inl h
      · split at h
        · simp only [List.mem_singleton] at h
          exact Or.inl h
        · split at h
          · simp only [List.mem_cons, List.not_mem_nil, or_false] at h
            rcases h with h | h | h <;> subst h
            · exact Or.inl rfl
            · exact Or.inr (Or.inl ⟨_, _, rfl⟩)
            · exact Or.inr (Or.inr rfl)
          · split at h <;>
            · simp only [List.mem_cons, List.not_mem_nil, or_false] at h
              rcases h with h | h | h <;> subst h
              · exact Or.inl rfl
              · exact Or.inr (Or.inl ⟨_, _, rfl⟩)
              · exact Or.inr (Or.inr rfl)

theorem mem_setupAfterStartup {c : Collab} {model : Model} {ev : Bool}
    {vp : PVal} {p2 : Params} {e : Event}
    (h : e ∈ (setupAfterStartup c model ev vp p2).1) :
    e = Event.datasetsFromParams ∨ (∃ ns, e = Event.logExtendingVocab ns) ∨
    (∃ v, e = Event.saveVocabulary v) ∨ e = Event.indexIterator ∨
    (∃ a b, e = Event.logFrozenTunable a b) ∨ e = Event.constructTrainer := by
  unfold setupAfterStartup at h
  split at h
  · simp only [List.mem_singleton] at h
    exact Or.inl h
  · dsimp only at h
    split at h
    · simp only [List.mem_cons] at h
      rcases h with h | h
      · exact Or.inl h
      · exact Or.inr (Or.inl (mem_vocabCreationStep h))
    · split at h <;>
      · simp only [List.mem_cons, List.mem_append] at h
        rcases h with (h | h) | (h | h)
        · exact Or.inl h
        · exact Or.inr (Or.inl (mem_vocabCreationStep h))
        · exact Or.inr (Or.inr (Or.inl ⟨_, h⟩))
        · rcases mem_trainerSetupStep h with h3 | h3 | h3
          · exact Or.inr (Or.inr (Or.inr (Or.inl h3)))
          · exact Or.inr (Or.inr (Or.inr (Or.inr (Or.inl h3))))
          · exact Or.inr (Or.inr (Or.inr (Or.inr (Or.inr h3))))

theorem mem_fineTuneSetup {c : Collab} {model : Model} {params : Params} {sd : String}
    {de dn ev : Bool} {e : Event}
    (h : e ∈ (fineTuneSetup c model params sd de dn ev).1) :
    Event.isSetup e = true := by
  unfold fineTuneSetup at h
  have hone : ∀ e2 : Event, e2 ∈ (startupStep params sd de dn).1 → Event.isSetup e2 = true := by
    intro e2 h2
    rcases mem_startupStep h2 with h3 | h3 | h3 | h3 | h3 | h3 <;> subst h3 <;> rfl
  split at h
  · exact hone e h
  · simp only [List.mem_append] at h
    rcases h with h | h
    · exact hone e h
    · rcases mem_setupAfterStartup h with h3 | ⟨ns, h3⟩ | ⟨v, h3⟩ | h3 | ⟨a, b, h3⟩ | h3 <;>
        subst h3 <;> rfl

/-! ### Glue lemmas relating the phases -/

theorem startup_eq {de dn : Bool} (params : Params) (sd : String)
    (hdir : (de && dn) = false) :
    startupStep params sd de dn =
      (startupEvents params sd, some (vocabSectionOf params, afterWarnPops params)) := by
  simp [startupStep, hdir]

theorem fineTuneSetup_trace (c : Collab) (model : Model) (params : Params) (sd : String)
    (de dn ev : Bool) :
    ∃ r, (fineTuneSetup c model params sd de dn ev).1 =
      (startupStep params sd de dn).1 ++ r := by
  unfold fineTuneSetup
  split
  · exact ⟨[], (List.append_nil _).symm⟩
  · exact ⟨_, rfl⟩

theorem fineTuneModel_trace (c : Collab) (model : Model) (params : Params) (sd : String)
    (de dn ev : Bool) :
    ∃ r, (fineTuneModel c model params sd de dn ev).1 =
      (fineTuneSetup c model params sd de dn ev).1 ++ r := by
  unfold fineTuneModel
  split
  · exact ⟨[], (List.append_nil _).symm⟩
  · exact ⟨_, rfl⟩

theorem fineTuneModel_of_setup_error {c : Collab} {model : Model} {params : Params}
    {sd : String} {de dn ev : Bool} {t : List Event} {e : Err} {m : Model}
    (h : fineTuneSetup c model params sd de dn ev = (t, .error (e, m))) :
    fineTuneModel c model params sd de dn ev = (t, .err e m) := by
  unfold fineTuneModel
  rw [h]

theorem fineTuneModel_of_setup_ok {c : Collab} {model : Model} {params : Params}
    {sd : String} {de dn ev : Bool} {t : List Event}
    {r : Model × Bool × Option Dataset}
    (h : fineTuneSetup c model params sd de dn ev = (t, .ok r)) :
    fineTuneModel c model params sd de dn ev =
      (t ++ (trainPhase c r.1 r.2.1 r.2.2).1, (trainPhase c r.1 r.2.1 r.2.2).2) := by
  unfold fineTuneModel
  rw [h]

theorem train_mem_trainPhase (c : Collab) (m : Model) (eot : Bool)
    (td : Option Dataset) : Event.train ∈ (trainPhase c m eot td).1 := by
  unfold trainPhase
  split
  · exact List.mem_cons_self _ _
  · exact List.mem_cons_self _ _
  · split
    · split
      · exact List.mem_cons_self _ _
      · split
        · exact List.mem_cons_self _ _
        · exact List.mem_cons_self _ _
    · exact List.mem_cons_self _ _

theorem mem_trainPhase {c : Collab} {m : Model} {eot : Bool} {td : Option Dataset}
    {e : Event} (h : e ∈ (trainPhase c m eot td).1) :
    e = Event.train ∨ e = Event.archiveModel ∨ e = Event.evaluate ∨
    e = Event.logEvaluateHint ∨ (∃ mm, e = Event.writeMetricsFile mm) ∨
    ∃ mm, e = Event.logMetrics mm := by
  unfold trainPhase at h
  split at h
  · simp only [List.mem_cons] at h
    rcases h with h | h
    · exact Or.inl h
    · split at h
      · simp only [List.mem_singleton] at h
        exact Or.inr (Or.inl h)
      · simp at h
  · simp only [List.mem_singleton] at h
    exact Or.inl h
  · split at h
    · split at h
      · simp only [List.mem_cons, List.not_mem_nil, or_false] at h
        rcases h with h | h | h | h | h
        · exact Or.inl h
        · exact Or.inr (Or.inl h)
        · exact Or.inr (Or.inr (Or.inl h))
        · exact Or.inr (Or.inr (Or.inr (Or.inr (Or.inl ⟨_, h⟩))))
        · exact Or.inr (Or.inr (Or.inr (Or.inr (Or.inr ⟨_, h⟩))))
      · split at h
        · simp only [List.mem_cons, List.not_mem_nil, or_false] at h
          rcases h with h | h | h | h | h
          · exact Or.inl h
          · exact Or.inr (Or.inl h)
          · exact Or.inr (Or.inr (Or.inr (Or.inl h)))
          · exact Or.inr (Or.inr (Or.inr (Or.inr (Or.inl ⟨_, h⟩))))
          · exact Or.inr (Or.inr (Or.inr (Or.inr (Or.inr ⟨_, h⟩))))
        · simp only [List.mem_cons, List.not_mem_nil, or_false] at h
          rcases h with h | h | h | h
          · exact Or.inl h
          · exact Or.inr (Or.inl h)
          · exact Or.inr (Or.inr (Or.inr (Or.inr (Or.inl ⟨_, h⟩))))
          · exact Or.inr (Or.inr (Or.inr (Or.inr (Or.inr ⟨_, h⟩))))
    · simp only [List.mem_cons, List.not_mem_nil, or_false] at h
      rcases h with h | h | h | h
      · exact Or.inl h
      · exact Or.inr (Or.inl h)
      · exact Or.inr (Or.inr (Or.inr (Or.inr (Or.inl ⟨_, h⟩))))
      · exact Or.inr (Or.inr (Or.inr (Or.inr (Or.inr ⟨_, h⟩))))

theorem vocabCreationStep_off (f : PVal → Vocab → List Instance → Vocab)
    (vp : PVal) (vo : Vocab) (p3 : Params) (allDs : Datasets) :
    vocabCreationStep f false vp vo p3 allDs = ([], .ok (vo, p3)) := rfl

theorem vocabCreationStep_invalid {p3 : Params} {allDs : Datasets}
    {nsp4 : List String × Params} (f : PVal → Vocab → List Instance → Vocab)
    (vp : PVal) (vo : Vocab)
    (hdvc : dvcRequested p3 allDs = some nsp4)
    (hmiss : nsp4.1.all (fun d => (lookupKey d allDs).isSome) = false) :
    vocabCreationStep f true vp vo p3 allDs = ([], .error .invalidVocabSource) := by
  unfold vocabCreationStep vocabExtendGo
  rw [hdvc]
  simp [hmiss]

theorem vocabCreationStep_valid {p3 : Params} {allDs : Datasets}
    {nsp4 : List String × Params} (f : PVal → Vocab → List Instance → Vocab)
    (vp : PVal) (vo : Vocab)
    (hdvc : dvcRequested p3 allDs = some nsp4)
    (hall : nsp4.1.all (fun d => (lookupKey d allDs).isSome) = true) :
    vocabCreationStep f true vp vo p3 allDs =
      ([Event.logExtendingVocab nsp4.1],
       .ok (f vp vo (instancesFor nsp4.1 allDs), nsp4.2)) := by
  unfold vocabCreationStep vocabExtendGo
  rw [hdvc]
  simp [hall]

theorem fineTuneSetup_dfp_error {c : Collab} {model : Model} {params : Params}
    (sd : String) {de dn ev : Bool}
    (hdir : (de && dn) = false)
    (hdfp : c.dfp (afterWarnPops params) = Except.error ()) :
    fineTuneSetup c model params sd de dn ev =
      (startupEvents params sd ++ [Event.datasetsFromParams],
       .error (.datasetsFailed, model)) := by
  unfold fineTuneSetup
  rw [startup_eq params sd hdir]
  dsimp only
  unfold setupAfterStartup
  rw [hdfp]

theorem fineTuneSetup_vocab_error {c : Collab} {model : Model} {params : Params}
    (sd : String) {de dn ev : Bool} {tv : List Event} {e : Err}
    {p3 : Params} {allDs : Datasets}
    (hdir : (de && dn) = false)
    (hdfp : c.dfp (afterWarnPops params) = Except.ok (p3, allDs))
    (hvc : vocabCreationStep c.extendFn ev (vocabSectionOf params) model.vocab p3 allDs
            = (tv, Except.error e)) :
    fineTuneSetup c model params sd de dn ev =
      (startupEvents params sd ++ (Event.datasetsFromParams :: tv),
       .error (e, model)) := by
  unfold fineTuneSetup
  rw [startup_eq params sd hdir]
  dsimp only
  unfold setupAfterStartup
  rw [hdfp]
  dsimp only
  rw [hvc]

theorem fineTuneSetup_eq {c : Collab} {model : Model} {params : Params} (sd : String)
    {de dn ev : Bool} {tv : List Event} {vo4 : Vocab} {p3 p4 p7 : Params}
    {allDs : Datasets} {iv trv : PVal} {trd : Dataset}
    {ngr : List String × PVal} {eot : Bool}
    (hdir : (de && dn) = false)
    (hdfp : c.dfp (afterWarnPops params) = Except.ok (p3, allDs))
    (hvc : vocabCreationStep c.extendFn ev (vocabSectionOf params) model.vocab p3 allDs
            = (tv, Except.ok (vo4, p4)))
    (hiter : (popKey "iterator" p4).1 = some iv)
    (htrain : lookupKey "train" allDs = some trd)
    (htr : (popKey "trainer" (popKey "iterator" p4).2).1 = some trv)
    (hng : popNoGrad trv = Except.ok ngr)
    (heot : popBoolKey "evaluate_on_test" (popKey "trainer" (popKey "iterator" p4).2).2
            = Except.ok (eot, p7)) :
    fineTuneSetup c model params sd de dn ev =
      (startupEvents params sd ++ (Event.datasetsFromParams :: tv
        ++ Event.saveVocabulary vo4 ::
          [Event.indexIterator,
           Event.logFrozenTunable
             (frozenParameterNames (applyNoGrad c.research ngr.1 model.parameters))
             (tunableParameterNames (applyNoGrad c.research ngr.1 model.parameters)),
           Event.constructTrainer]),
       if p7.isEmpty then
         Except.ok (⟨vo4, applyNoGrad c.research ngr.1 model.parameters⟩, eot,
                    lookupKey "test" allDs)
       else Except.error (.extraKeys (p7.map Prod.fst), ⟨vo4, model.parameters⟩)) := by
  unfold fineTuneSetup
  rw [startup_eq params sd hdir]
  dsimp only
  unfold setupAfterStartup
  rw [hdfp]
  dsimp only
  rw [hvc]
  dsimp only
  unfold trainerSetupStep
  rw [hiter]
  dsimp only
  rw [htrain]
  dsimp only
  rw [htr]
  dsimp only
  rw [hng]
  dsimp only
  rw [heot]
  dsimp only
  cases hb : p7.isEmpty <;> simp [hb]

/-! ### Lemmas about the freezing step -/

theorem applyNoGrad_names (research : String → String → Bool) (regexes : List String)
    (ps : ParamFlags) :
    (applyNoGrad research regexes ps).map Prod.fst = ps.map Prod.fst := by
  unfold applyNoGrad
  rw [List.map_map]
  congr 1
  funext np
  simp only [Function.comp]
  split <;> rfl

theorem applyNoGrad_length (research : String → String → Bool) (regexes : List String)
    (ps : ParamFlags) :
    (applyNoGrad research regexes ps).length = ps.length := by
  unfold applyNoGrad
  exact List.length_map ps _

theorem eq_of_mem_nodup_fst {α β : Type} {l : List (α × β)}
    (hnd : (l.map Prod.fst).Nodup) {a b : α × β}
    (ha : a ∈ l) (hb : b ∈ l) (hfst : a.1 = b.1) : a = b := by
  induction l with
  | nil => cases ha
  | cons x rest ih =>
    simp only [List.map_cons, List.nodup_cons] at hnd
    rcases List.mem_cons.mp ha with rfl | ha2
    · rcases List.mem_cons.mp hb with rfl | hb2
      · rfl
      · exact absurd (hfst ▸ List.mem_map_of_mem Prod.fst hb2) hnd.1
    · rcases List.mem_cons.mp hb with rfl | hb2
      · exact absurd (hfst ▸ List.mem_map_of_mem Prod.fst ha2) hnd.1
      · exact ih hnd.2 ha2 hb2

/-! ### Lemmas about metrics assignment -/

theorem lookupKey_append {α : Type} (k : String) (a b : List (String × α)) :
    lookupKey k (a ++ b) =
      match lookupKey k a with
      | some v => some v
      | none => lookupKey k b := by
  induction a with
  | nil => rfl
  | cons kv rest ih =>
    simp only [List.cons_append, lookupKey]
    split
    · rfl
    · exact ih

theorem lookupKey_map_assign (m : Metrics) (k : String) (v : ℚ) :
    lookupKey k (m.map (fun kv => if kv.1 = k then (k, v) else kv)) =
      (lookupKey k m).map (fun _ => v) := by
  induction m with
  | nil => rfl
  | cons kv rest ih =>
    rw [List.map_cons]
    by_cases hk : kv.1 = k
    · rw [if_pos hk]
      simp [lookupKey, hk]
    · rw [if_neg hk]
      simp only [lookupKey]
      rw [if_neg hk, if_neg hk]
      exact ih

theorem lookupKey_map_assign_ne {q k : String} (m : Metrics) (v : ℚ) (h : q ≠ k) :
    lookupKey q (m.map (fun kv => if kv.1 = k then (k, v) else kv)) = lookupKey q m := by
  induction m with
  | nil => rfl
  | cons kv rest ih =>
    rw [List.map_cons]
    by_cases hk : kv.1 = k
    · rw [if_pos hk]
      simp only [lookupKey]
      rw [if_neg (fun he : k = q => h he.symm),
          if_neg (fun he : kv.1 = q => h ((hk.symm.trans he).symm))]
      exact ih
    · rw [if_neg hk]
      simp only [lookupKey]
      split
      · rfl
      · exact ih

theorem lookupKey_metricsAssign_self (m : Metrics) (k : String) (v : ℚ) :
    lookupKey k (metricsAssign m k v) = some v := by
  unfold metricsAssign
  split
  · rename_i hsome
    rw [lookupKey_map_assign]
    obtain ⟨w, hw⟩ := Option.isSome_iff_exists.mp hsome
    rw [hw]
    rfl
  · rename_i hnone
    have h0 : lookupKey k m = none := by
      cases hl : lookupKey k m
      · rfl
      · rw [hl] at hnone; simp at hnone
    rw [lookupKey_append, h0]
    simp [lookupKey]

theorem lookupKey_metricsAssign_ne {q k : String} (m : Metrics) (v : ℚ) (h : q ≠ k) :
    lookupKey q (metricsAssign m k v) = lookupKey q m := by
  unfold metricsAssign
  split
  · exact lookupKey_map_assign_ne m v h
  · rw [lookupKey_append]
    cases hq : lookupKey q m
    · simp only [lookupKey]
      rw [if_neg (fun he : k = q => h he.symm)]
    · rfl

theorem lookup_foldAssign_skip (evs : Metrics) (m : Metrics) (k : String)
    (h : ∀ kv ∈ evs, k ≠ "test_" ++ kv.1) :
    lookupKey k (evs.foldl (fun acc kv => metricsAssign acc ("test_" ++ kv.1) kv.2) m)
      = lookupKey k m := by
  induction evs generalizing m with
  | nil => rfl
  | cons kv rest ih =>
    simp only [List.foldl_cons]
    rw [ih _ (fun kv2 h2 => h kv2 (List.mem_cons_of_mem _ h2))]
    exact lookupKey_metricsAssign_ne _ _ (h kv (List.mem_cons_self _ _))

theorem lookup_foldAssign_mem (evs : Metrics) (m : Metrics) (k : String) (v : ℚ)
    (hnd : (evs.map (fun kv => "test_" ++ kv.1)).Nodup)
    (hmem : (k, v) ∈ evs) :
    lookupKey ("test_" ++ k)
      (evs.foldl (fun acc kv => metricsAssign acc ("test_" ++ kv.1) kv.2) m)
      = some v := by
  induction evs generalizing m with
  | nil => cases hmem
  | cons kv rest ih =>
    simp only [List.map_cons, List.nodup_cons] at hnd
    rcases List.mem_cons.mp hmem with heq | hm2
    · cases heq.symm
      simp only [List.foldl_cons]
      rw [lookup_foldAssign_skip rest _ _ ?hskip]
      · exact lookupKey_metricsAssign_self _ _ _
      case hskip =>
        intro kv2 h2 heq2
        exact hnd.1 (heq2 ▸ List.mem_map_of_mem (fun kv3 => "test_" ++ kv3.1) h2)
    · simp only [List.foldl_cons]
      exact ih _ hnd.2 hm2

theorem mem_keys_of_lookup {α : Type} {k : String} {ps : List (String × α)} {v : α}
    (h : lookupKey k ps = some v) : k ∈ ps.map Prod.fst := by
  induction ps with
  | nil => cases h
  | cons kv rest ih =>
    simp only [lookupKey] at h
    split at h
    · rename_i hk
      exact List.mem_cons.mpr (Or.inl hk.symm)
    · exact List.mem_cons.mpr (Or.inr (ih h))

theorem train_mem_of_setup_ok {c : Collab} {model : Model} {params : Params}
    {sd : String} {de dn ev : Bool} {t : List Event}
    {r : Model × Bool × Option Dataset}
    (h : fineTuneSetup c model params sd de dn ev = (t, .ok r)) :
    Event.train ∈ (fineTuneModel c model params sd de dn ev).1 := by
  rw [fineTuneModel_of_setup_ok h]
  exact List.mem_append_right _ (train_mem_trainPhase c r.1 r.2.1 r.2.2)

theorem save_mem_of_vc_ok {c : Collab} {model : Model} {params : Params}
    (sd : String) {de dn ev : Bool} {tv : List Event} {vo4 : Vocab}
    {p3 p4 : Params} {allDs : Datasets}
    (hdir : (de && dn) = false)
    (hdfp : c.dfp (afterWarnPops params) = Except.ok (p3, allDs))
    (hvc : vocabCreationStep c.extendFn ev (vocabSectionOf params) model.vocab p3 allDs
            = (tv, Except.ok (vo4, p4))) :
    Event.saveVocabulary vo4 ∈ (fineTuneSetup c model params sd de dn ev).1 := by
  unfold fineTuneSetup
  rw [startup_eq params sd hdir]
  dsimp only
  unfold setupAfterStartup
  rw [hdfp]
  dsimp only
  rw [hvc]
  dsimp only
  split <;> simp

theorem startup_some {params : Params} {sd : String} {de dn : Bool}
    {vp : PVal × Params}
    (h : (startupStep params sd de dn).2 = some vp) :
    vp = (vocabSectionOf params, afterWarnPops params) := by
  unfold startupStep at h
  split at h
  · simp at h
  · exact (Option.some.inj h).symm

theorem vocabCreationStep_ok_val {f : PVal → Vocab → List Instance → Vocab}
    {ev : Bool} {vp : PVal} {vo : Vocab} {p3 : Params} {ds : Datasets}
    {vpr : Vocab × Params}
    (h : (vocabCreationStep f ev vp vo p3 ds).2 = Except.ok vpr) :
    vpr.1 = vo ∨ ∃ ins, vpr.1 = f vp vo ins := by
  unfold vocabCreationStep at h
  split at h
  · split at h
    · simp at h
    · unfold vocabExtendGo at h
      split at h
      · injection h with h2
        exact Or.inr ⟨_, by rw [← h2]⟩
      · simp at h
  · injection h with h2
    exact Or.inl (by rw [← h2])

theorem save_value_setupAfterStartup {c : Collab} {model : Model} {ev : Bool}
    {vp : PVal} {p2 : Params} {v2 : Vocab}
    (h : Event.saveVocabulary v2 ∈ (setupAfterStartup c model ev vp p2).1) :
    v2 = model.vocab ∨ ∃ ins, v2 = c.extendFn vp model.vocab ins := by
  unfold setupAfterStartup at h
  split at h
  · simp at h
  · dsimp only at h
    split at h
    · simp only [List.mem_cons] at h
      rcases h with h | h
      · simp at h
      · obtain ⟨ns, h3⟩ := mem_vocabCreationStep h
        simp at h3
    · rename_i vp4 heq4
      split at h <;>
      · simp only [List.mem_cons, List.mem_append] at h
        rcases h with (h | h) | (h | h)
        · simp at h
        · obtain ⟨ns, h3⟩ := mem_vocabCreationStep h
          simp at h3
        · have hv2 : v2 = vp4.1 := by
            injection h
          rw [hv2]
          exact vocabCreationStep_ok_val heq4
        · rcases mem_trainerSetupStep h with h3 | ⟨a, b, h3⟩ | h3 <;> simp at h3

theorem save_value_fineTuneModel {c : Collab} {model : Model} {params : Params}
    {sd : String} {de dn ev : Bool} {v2 : Vocab}
    (h : Event.saveVocabulary v2 ∈ (fineTuneModel c model params sd de dn ev).1) :
    v2 = model.vocab ∨ ∃ ins, v2 = c.extendFn (vocabSectionOf params) model.vocab ins := by
  have hsetup : Event.saveVocabulary v2 ∈ (fineTuneSetup c model params sd de dn ev).1 →
      v2 = model.vocab ∨ ∃ ins, v2 = c.extendFn (vocabSectionOf params) model.vocab ins := by
    intro hmem
    unfold fineTuneSetup at hmem
    split at hmem
    · rcases mem_startupStep hmem with h3 | h3 | h3 | h3 | h3 | h3 <;> simp at h3
    · rename_i vp heq
      rw [startup_some heq] at hmem
      rcases List.mem_append.mp hmem with h2 | h2
      · rcases mem_startupStep h2 with h3 | h3 | h3 | h3 | h3 | h3 <;> simp at h3
      · exact save_value_setupAfterStartup h2
  unfold fineTuneModel at h
  split at h
  · exact hsetup h
  · rcases List.mem_append.mp h with h2 | h2
    · exact hsetup h2
    · rcases mem_trainPhase h2 with h3 | h3 | h3 | h3 | ⟨mm, h3⟩ | ⟨mm, h3⟩ <;> simp at h3

/-- Helper: a predicate true only on warning events counts the same on the
whole run trace as on the startup trace — no later phase warns. -/
theorem countP_fineTuneModel_warn (c : Collab) (model : Model) (params : Params)
    (sd : String) (de dn ev : Bool) (p : Event → Bool)
    (hp : ∀ e : Event, p e = true →
      e = Event.warnIgnoringModelSection ∨ e = Event.warnIgnoringVocabDirectoryPath) :
    (fineTuneModel c model params sd de dn ev).1.countP p
      = ((startupStep params sd de dn).1).countP p := by
  have hafter : ∀ (vp : PVal) (p2 : Params),
      ((setupAfterStartup c model ev vp p2).1).countP p = 0 := by
    intro vp p2
    refine List.countP_eq_zero.mpr (fun e he => ?_)
    intro hpe
    rcases hp e hpe with rfl | rfl <;>
      rcases mem_setupAfterStartup he with h3 | ⟨ns, h3⟩ | ⟨v2, h3⟩ | h3 | ⟨a, b, h3⟩ | h3 <;>
        simp at h3
  have htp0 : ∀ (m : Model) (eot : Bool) (td : Option Dataset),
      ((trainPhase c m eot td).1).countP p = 0 := by
    intro m eot td
    refine List.countP_eq_zero.mpr (fun e he => ?_)
    intro hpe
    rcases hp e hpe with rfl | rfl <;>
      rcases mem_trainPhase he with h3 | h3 | h3 | h3 | ⟨mm, h3⟩ | ⟨mm, h3⟩ <;>
        simp at h3
  have hsc : (fineTuneSetup c model params sd de dn ev).1.countP p
      = ((startupStep params sd de dn).1).countP p := by
    unfold fineTuneSetup
    split
    · rfl
    · rw [List.countP_append, hafter, Nat.add_zero]
  unfold fineTuneModel
  split
  · exact hsc
  · rw [List.countP_append, htp0, Nat.add_zero]
    exact hsc

/-! ### Claim theorems -/

/-- C1, counterexample: the claim "a parameter has gradient tracking disabled
after the freezing step if and only if its name matches at least one
`no_grad` pattern" is false on the code: the loop of lines 210-212 only ever
disables tracking and never enables it, so a parameter that enters the step
with tracking already disabled stays disabled even when the pattern list is
empty. -/
theorem c1_freeze_counterexample :
    ¬ (((applyNoGrad researchEq [] [("w", false)]).get ⟨0, by decide⟩).2 = false
        ↔ ([] : List String).any (fun r => researchEq r "w") = true) := by
  decide

/-- C1, amended: after the freezing step a parameter's gradient tracking is
disabled iff its name matches at least one `no_grad` pattern (under the
abstracted `re.search` relation) or tracking was already disabled before the
step; in particular, when every parameter enters with tracking enabled, it
is disabled afterwards iff its name matches some pattern.  Moreover the
logged frozen and tunable name lists are disjoint and their union is the
full parameter name set (given the distinct parameter names produced by
`named_parameters`). -/
theorem c1_freeze_amended (research : String → String → Bool) (regexes : List String)
    (ps : ParamFlags) (hnd : (ps.map Prod.fst).Nodup) :
    (∀ i, (h1 : i < ps.length) → (h2 : i < (applyNoGrad research regexes ps).length) →
      ((applyNoGrad research regexes ps)[i].2 = false ↔
        (regexes.any (fun r => research r ps[i].1) = true ∨ ps[i].2 = false)))
    ∧ ((∀ p ∈ ps, p.2 = true) →
       ∀ i, (h1 : i < ps.length) → (h2 : i < (applyNoGrad research regexes ps).length) →
        ((applyNoGrad research regexes ps)[i].2 = false ↔
          regexes.any (fun r => research r ps[i].1) = true))
    ∧ (∀ n, ¬(n ∈ frozenParameterNames (applyNoGrad research regexes ps)
              ∧ n ∈ tunableParameterNames (applyNoGrad research regexes ps)))
    ∧ (∀ n, (n ∈ frozenParameterNames (applyNoGrad research regexes ps)
             ∨ n ∈ tunableParameterNames (applyNoGrad research regexes ps))
            ↔ n ∈ ps.map Prod.fst) := by
  have hget : ∀ i, (h1 : i < ps.length) → (h2 : i < (applyNoGrad research regexes ps).length) →
      (applyNoGrad research regexes ps)[i] =
        if regexes.any (fun r => research r ps[i].1) then (ps[i].1, false) else ps[i] := by
    intro i h1 h2
    unfold applyNoGrad
    rw [List.getElem_map]
  have hndA : ((applyNoGrad research regexes ps).map Prod.fst).Nodup := by
    rw [applyNoGrad_names]; exact hnd
  refine ⟨?_, ?_, ?_, ?_⟩
  · intro i h1 h2
    rw [hget i h1 h2]
    by_cases ha : regexes.any (fun r => research r ps[i].1) = true <;> simp [ha]
  · intro hall i h1 h2
    rw [hget i h1 h2]
    have hp : ps[i].2 = true := hall _ (List.getElem_mem h1)
    by_cases ha : regexes.any (fun r => research r ps[i].1) = true <;> simp [ha, hp]
  · rintro n ⟨hf, ht⟩
    simp only [frozenParameterNames, tunableParameterNames, List.mem_map,
      List.mem_filter] at hf ht
    obtain ⟨a, ⟨haMem, haFlag⟩, haFst⟩ := hf
    obtain ⟨b, ⟨hbMem, hbFlag⟩, hbFst⟩ := ht
    have hab : a = b := eq_of_mem_nodup_fst hndA haMem hbMem (haFst.trans hbFst.symm)
    rw [hab] at haFlag
    simp [hbFlag] at haFlag
  · intro n
    rw [← applyNoGrad_names research regexes ps]
    constructor
    · rintro (hf | ht)
      · simp only [frozenParameterNames, List.mem_map, List.mem_filter] at hf
        obtain ⟨a, ⟨haMem, _⟩, haFst⟩ := hf
        exact haFst ▸ List.mem_map_of_mem Prod.fst haMem
      · simp only [tunableParameterNames, List.mem_map, List.mem_filter] at ht
        obtain ⟨a, ⟨haMem, _⟩, haFst⟩ := ht
        exact haFst ▸ List.mem_map_of_mem Prod.fst haMem
    · intro hmem
      simp only [List.mem_map] at hmem
      obtain ⟨a, haMem, haFst⟩ := hmem
      cases hflag : a.2
      · exact Or.inl (by
          simp only [frozenParameterNames, List.mem_map, List.mem_filter]
          exact ⟨a, ⟨haMem, by simp [hflag]⟩, haFst⟩)
      · exact Or.inr (by
          simp only [tunableParameterNames, List.mem_map, List.mem_filter]
          exact ⟨a, ⟨haMem, by simp [hflag]⟩, haFst⟩)

/-- C1, witness for the amended theorem: two parameters with distinct names,
one matching the single pattern, at the exact-match search relation. -/
theorem c1_freeze_amended_witness :
    ((([("w", true), ("b", true)] : ParamFlags).map Prod.fst).Nodup)
    ∧ ((∀ i, (h1 : i < ([("w", true), ("b", true)] : ParamFlags).length) →
        (h2 : i < (applyNoGrad researchEq ["w"] [("w", true), ("b", true)]).length) →
        ((applyNoGrad researchEq ["w"] [("w", true), ("b", true)])[i].2 = false ↔
          ((["w"] : List String).any
              (fun r => researchEq r ([("w", true), ("b", true)] : ParamFlags)[i].1) = true
            ∨ ([("w", true), ("b", true)] : ParamFlags)[i].2 = false)))
      ∧ ((∀ p ∈ ([("w", true), ("b", true)] : ParamFlags), p.2 = true) →
         ∀ i, (h1 : i < ([("w", true), ("b", true)] : ParamFlags).length) →
          (h2 : i < (applyNoGrad researchEq ["w"] [("w", true), ("b", true)]).length) →
          ((applyNoGrad researchEq ["w"] [("w", true), ("b", true)])[i].2 = false ↔
            (["w"] : List String).any
              (fun r => researchEq r ([("w", true), ("b", true)] : ParamFlags)[i].1) = true))
      ∧ (∀ n, ¬(n ∈ frozenParameterNames (applyNoGrad researchEq ["w"] [("w", true), ("b", true)])
                ∧ n ∈ tunableParameterNames (applyNoGrad researchEq ["w"] [("w", true), ("b", true)])))
      ∧ (∀ n, (n ∈ frozenParameterNames (applyNoGrad researchEq ["w"] [("w", true), ("b", true)])
               ∨ n ∈ tunableParameterNames (applyNoGrad researchEq ["w"] [("w", true), ("b", true)]))
              ↔ n ∈ ([("w", true), ("b", true)] : ParamFlags).map Prod.fst)) :=
  ⟨by decide, c1_freeze_amended researchEq ["w"] [("w", true), ("b", true)] (by decide)⟩

/-- C2: when the serialization directory already exists and is non-empty, the
run raises the configuration error of lines 163-165 immediately: the trace
holds only the environment preparation (no directory creation, no file
write, no training), and the model is returned exactly as it was. -/
theorem c2_nonempty_dir_aborts (c : Collab) (model : Model) (params : Params)
    (sd : String) (ev : Bool) :
    fineTuneModel c model params sd true true ev =
      ([Event.prepareEnvironment], Outcome.err Err.dirNotEmpty model) := rfl

/-- C3: when the serialization directory is absent the trace begins with
environment preparation, directory creation, logging setup and the
configuration-snapshot write carrying the full merged configuration (no key
popped yet); dataset construction can only appear later, and when dataset
construction fails the run ends in the dataset error with that prefix — the
snapshot is already on disk. -/
theorem c3_snapshot_before_datasets (c : Collab) (model : Model) (params : Params)
    (sd : String) (dn ev : Bool) :
    (∃ rest, (fineTuneModel c model params sd false dn ev).1 =
      [Event.prepareEnvironment, Event.makedirs sd, Event.prepareGlobalLogging,
       Event.writeConfigFile params] ++ rest)
    ∧ Event.datasetsFromParams ∉ ([Event.prepareEnvironment, Event.makedirs sd,
        Event.prepareGlobalLogging, Event.writeConfigFile params] : List Event)
    ∧ (c.dfp (afterWarnPops params) = Except.error () →
        (fineTuneModel c model params sd false dn ev).2 =
          Outcome.err Err.datasetsFailed model) := by
  refine ⟨?_, by simp, ?_⟩
  · obtain ⟨r1, h1⟩ := fineTuneSetup_trace c model params sd false dn ev
    obtain ⟨r2, h2⟩ := fineTuneModel_trace c model params sd false dn ev
    rw [h2, h1, startup_eq params sd (by simp)]
    unfold startupEvents
    refine ⟨(if optTruthy (popKey "model" params).1 then [Event.warnIgnoringModelSection]
        else [])
      ++ ((if optTruthy (pvalGet (vocabSectionOf params) "directory_path")
          then [Event.warnIgnoringVocabDirectoryPath] else []) ++ (r1 ++ r2)), ?_⟩
    simp [List.append_assoc]
  · intro hfail
    rw [fineTuneModel_of_setup_error (fineTuneSetup_dfp_error sd (by simp) hfail)]

/-- Helper: a predicate that is false on every setup event counts zero
occurrences on the setup trace. -/
theorem countP_setup_zero {c : Collab} {model : Model} {params : Params} {sd : String}
    {de dn ev : Bool} {p : Event → Bool}
    (hp : ∀ e : Event, Event.isSetup e = true → p e = false) :
    ((fineTuneSetup c model params sd de dn ev).1).countP p = 0 :=
  List.countP_eq_zero.mpr (fun e he => by simp [hp e (mem_fineTuneSetup he)])

/-- C4: when `trainer.train()` is interrupted by the user, the run always
re-raises the interrupt (outcome is the interrupt error, never swallowed),
the archival call happens exactly once if the weights checkpoint exists and
not at all otherwise, and no `metrics.json` write appears on the trace. -/
theorem c4_interrupt_archival (c : Collab) (model : Model) (params : Params)
    (sd : String) (de dn ev : Bool) (t0 : List Event) (m : Model) (eot : Bool)
    (td : Option Dataset) (w : Bool)
    (hsetup : fineTuneSetup c model params sd de dn ev = (t0, .ok (m, eot, td)))
    (hint : c.trainRes = .interrupt w) :
    (fineTuneModel c model params sd de dn ev).2 = Outcome.err Err.keyboardInterrupt m
    ∧ (fineTuneModel c model params sd de dn ev).1.countP Event.isArchive
        = (if w then 1 else 0)
    ∧ (fineTuneModel c model params sd de dn ev).1.countP Event.isMetricsWrite = 0 := by
  have ht0arch : t0.countP Event.isArchive = 0 := by
    rw [← show (fineTuneSetup c model params sd de dn ev).1 = t0 from by rw [hsetup]]
    exact countP_setup_zero (fun e he => by
      cases e <;> first | rfl | (exfalso; simp [Event.isSetup] at he))
  have ht0mw : t0.countP Event.isMetricsWrite = 0 := by
    rw [← show (fineTuneSetup c model params sd de dn ev).1 = t0 from by rw [hsetup]]
    exact countP_setup_zero (fun e he => by
      cases e <;> first | rfl | (exfalso; simp [Event.isSetup] at he))
  have htp : trainPhase c m eot td =
      (Event.train :: (if w then [Event.archiveModel] else []),
       Outcome.err Err.keyboardInterrupt m) := by
    unfold trainPhase
    rw [hint]
  rw [fineTuneModel_of_setup_ok hsetup]
  dsimp only
  rw [htp]
  refine ⟨rfl, ?_, ?_⟩
  · rw [List.countP_append, ht0arch, List.countP_cons]
    cases w <;> simp [Event.isArchive, List.countP_cons]
  · rw [List.countP_append, ht0mw, List.countP_cons]
    cases w <;> simp [Event.isMetricsWrite, List.countP_cons]

/-- C4, witness: a minimal configuration whose setup succeeds, interrupted
with the checkpoint present: the interrupt is re-raised, exactly one archive
call happens, no metrics write. -/
theorem c4_interrupt_archival_witness :
    (fineTuneModel (mkCollab (.interrupt true) [] [("train", ["x"])])
        ⟨["tok"], [("w", true)]⟩
        [("iterator", PVal.tree []), ("trainer", PVal.tree [])]
        "out" false false false).2
      = Outcome.err Err.keyboardInterrupt ⟨["tok"], [("w", true)]⟩
    ∧ (fineTuneModel (mkCollab (.interrupt true) [] [("train", ["x"])])
        ⟨["tok"], [("w", true)]⟩
        [("iterator", PVal.tree []), ("trainer", PVal.tree [])]
        "out" false false false).1.countP Event.isArchive = 1
    ∧ (fineTuneModel (mkCollab (.interrupt true) [] [("train", ["x"])])
        ⟨["tok"], [("w", true)]⟩
        [("iterator", PVal.tree []), ("trainer", PVal.tree [])]
        "out" false false false).1.countP Event.isMetricsWrite = 0 :=
  c4_interrupt_archival (mkCollab (.interrupt true) [] [("train", ["x"])])
    ⟨["tok"], [("w", true)]⟩
    [("iterator", PVal.tree []), ("trainer", PVal.tree [])] "out" false false false
    [Event.prepareEnvironment, Event.makedirs "out", Event.prepareGlobalLogging,
     Event.writeConfigFile [("iterator", PVal.tree []), ("trainer", PVal.tree [])],
     Event.datasetsFromParams, Event.saveVocabulary ["tok"], Event.indexIterator,
     Event.logFrozenTunable [] ["w"], Event.constructTrainer]
    ⟨["tok"], [("w", true)]⟩ false none true rfl rfl

/-- C9: on a normal-completion run with a non-empty test split and
`evaluate_on_test` set, the final metrics document is the trainer's metrics
with every evaluation metric re-assigned under its `test_`-prefixed key;
that document is the one written to `metrics.json`; every evaluation key
`k` with value `v` is found under `test_` ++ `k` with value `v` unchanged,
and every key that collides with no prefixed evaluation key keeps its
trainer value. -/
theorem c9_test_metrics_merge (c : Collab) (model : Model) (params : Params)
    (sd : String) (de dn ev : Bool) (t0 : List Event) (m : Model)
    (td : Dataset) (tm : Metrics)
    (hsetup : fineTuneSetup c model params sd de dn ev = (t0, .ok (m, true, some td)))
    (htd : td.isEmpty = false)
    (htrain : c.trainRes = .ok tm)
    (hnd : (c.evalMetrics.map (fun kv => "test_" ++ kv.1)).Nodup) :
    (fineTuneModel c model params sd de dn ev).2 =
      Outcome.ok m (c.evalMetrics.foldl
        (fun acc kv => metricsAssign acc ("test_" ++ kv.1) kv.2) tm)
    ∧ Event.writeMetricsFile (c.evalMetrics.foldl
        (fun acc kv => metricsAssign acc ("test_" ++ kv.1) kv.2) tm)
        ∈ (fineTuneModel c model params sd de dn ev).1
    ∧ (∀ k v, (k, v) ∈ c.evalMetrics →
        lookupKey ("test_" ++ k)
          (c.evalMetrics.foldl (fun acc kv => metricsAssign acc ("test_" ++ kv.1) kv.2) tm)
          = some v)
    ∧ (∀ k, (∀ kv ∈ c.evalMetrics, k ≠ "test_" ++ kv.1) →
        lookupKey k
          (c.evalMetrics.foldl (fun acc kv => metricsAssign acc ("test_" ++ kv.1) kv.2) tm)
          = lookupKey k tm) := by
  have htp : trainPhase c m true (some td) =
      ([Event.train, Event.archiveModel, Event.evaluate,
        Event.writeMetricsFile (c.evalMetrics.foldl
          (fun acc kv => metricsAssign acc ("test_" ++ kv.1) kv.2) tm),
        Event.logMetrics (c.evalMetrics.foldl
          (fun acc kv => metricsAssign acc ("test_" ++ kv.1) kv.2) tm)],
       Outcome.ok m (c.evalMetrics.foldl
          (fun acc kv => metricsAssign acc ("test_" ++ kv.1) kv.2) tm)) := by
    unfold trainPhase
    rw [htrain]
    simp [htd]
  rw [fineTuneModel_of_setup_ok hsetup]
  dsimp only
  rw [htp]
  refine ⟨rfl, ?_, ?_, ?_⟩
  · simp
  · intro k v hm
    exact lookup_foldAssign_mem _ _ _ _ hnd hm
  · intro k hk
    exact lookup_foldAssign_skip _ _ _ hk

/-- C9, witness: trainer metrics `loss = 1`, evaluation metrics
`accuracy = 9/10`: the final document binds `test_accuracy` to `9/10`
alongside the unprefixed `loss`. -/
theorem c9_test_metrics_merge_witness :
    (fineTuneModel (mkCollab (.ok [("loss", 1)]) [("accuracy", 9 / 10)]
        [("train", ["x"]), ("test", ["t1"])])
        ⟨["tok"], [("w", true)]⟩
        [("iterator", PVal.tree []), ("trainer", PVal.tree []),
         ("evaluate_on_test", PVal.bool true)]
        "out" false false false).2
      = Outcome.ok ⟨["tok"], [("w", true)]⟩ [("loss", 1), ("test_accuracy", 9 / 10)]
    ∧ Event.writeMetricsFile [("loss", 1), ("test_accuracy", 9 / 10)]
        ∈ (fineTuneModel (mkCollab (.ok [("loss", 1)]) [("accuracy", 9 / 10)]
            [("train", ["x"]), ("test", ["t1"])])
            ⟨["tok"], [("w", true)]⟩
            [("iterator", PVal.tree []), ("trainer", PVal.tree []),
             ("evaluate_on_test", PVal.bool true)]
            "out" false false false).1
    ∧ (∀ k v, (k, v) ∈ ([("accuracy", 9 / 10)] : Metrics) →
        lookupKey ("test_" ++ k) ([("loss", 1), ("test_accuracy", 9 / 10)] : Metrics)
          = some v)
    ∧ (∀ k, (∀ kv ∈ ([("accuracy", 9 / 10)] : Metrics), k ≠ "test_" ++ kv.1) →
        lookupKey k ([("loss", 1), ("test_accuracy", 9 / 10)] : Metrics)
          = lookupKey k ([("loss", 1)] : Metrics)) :=
  c9_test_metrics_merge (mkCollab (.ok [("loss", 1)]) [("accuracy", 9 / 10)]
      [("train", ["x"]), ("test", ["t1"])])
    ⟨["tok"], [("w", true)]⟩
    [("iterator", PVal.tree []), ("trainer", PVal.tree []),
     ("evaluate_on_test", PVal.bool true)]
    "out" false false false
    [Event.prepareEnvironment, Event.makedirs "out", Event.prepareGlobalLogging,
     Event.writeConfigFile [("iterator", PVal.tree []), ("trainer", PVal.tree []),
       ("evaluate_on_test", PVal.bool true)],
     Event.datasetsFromParams, Event.saveVocabulary ["tok"], Event.indexIterator,
     Event.logFrozenTunable [] ["w"], Event.constructTrainer]
    ⟨["tok"], [("w", true)]⟩ ["t1"] [("loss", 1)] rfl rfl rfl (by decide)

/-- C5: whenever configuration keys remain unconsumed at the `assert_empty`
check of line 231 — after the `model`, `vocabulary` (startup pops), the keys
taken by dataset construction, the optional `datasets_for_vocab_creation`,
`iterator`, `trainer` and `evaluate_on_test` have all been extracted — the
run fails with the unrecognized-configuration error naming exactly those
keys, and training is never invoked. -/
theorem c5_leftover_keys_fail (c : Collab) (model : Model) (params : Params)
    (sd : String) (de dn ev : Bool) (tv : List Event) (vo4 : Vocab)
    (p3 p4 p7 : Params) (allDs : Datasets) (iv trv : PVal) (trd : Dataset)
    (ngr : List String × PVal) (eot : Bool)
    (hdir : (de && dn) = false)
    (hdfp : c.dfp (afterWarnPops params) = Except.ok (p3, allDs))
    (hvc : vocabCreationStep c.extendFn ev (vocabSectionOf params) model.vocab p3 allDs
            = (tv, Except.ok (vo4, p4)))
    (hiter : (popKey "iterator" p4).1 = some iv)
    (htrain : lookupKey "train" allDs = some trd)
    (htr : (popKey "trainer" (popKey "iterator" p4).2).1 = some trv)
    (hng : popNoGrad trv = Except.ok ngr)
    (heot : popBoolKey "evaluate_on_test" (popKey "trainer" (popKey "iterator" p4).2).2
            = Except.ok (eot, p7))
    (hleft : p7.isEmpty = false) :
    (∃ m2, (fineTuneModel c model params sd de dn ev).2
      = Outcome.err (Err.extraKeys (p7.map Prod.fst)) m2)
    ∧ Event.train ∉ (fineTuneModel c model params sd de dn ev).1 := by
  have hs := fineTuneSetup_eq sd hdir hdfp hvc hiter htrain htr hng heot
  rw [hleft] at hs
  simp only [Bool.false_eq_true, if_false] at hs
  constructor
  · exact ⟨_, by rw [fineTuneModel_of_setup_error hs]⟩
  · intro hmem
    rw [fineTuneModel_of_setup_error hs] at hmem
    have hmem2 : Event.train ∈ (fineTuneSetup c model params sd de dn ev).1 := by
      rw [hs]
      exact hmem
    exact absurd (mem_fineTuneSetup hmem2) (by simp [Event.isSetup])

/-- C5, witness: a configuration holding a `typo_key` that nothing consumes
fails the final check before training. -/
theorem c5_leftover_keys_fail_witness :
    ((∃ m2, (fineTuneModel (mkCollab (.ok []) [] [("train", ["x"])])
        ⟨["tok"], [("w", true)]⟩
        [("iterator", PVal.tree []), ("trainer", PVal.tree []),
         ("typo_key", PVal.bool true)] "out" false false false).2
      = Outcome.err (Err.extraKeys ["typo_key"]) m2)
    ∧ Event.train ∉ (fineTuneModel (mkCollab (.ok []) [] [("train", ["x"])])
        ⟨["tok"], [("w", true)]⟩
        [("iterator", PVal.tree []), ("trainer", PVal.tree []),
         ("typo_key", PVal.bool true)] "out" false false false).1) :=
  c5_leftover_keys_fail (mkCollab (.ok []) [] [("train", ["x"])])
    ⟨["tok"], [("w", true)]⟩
    [("iterator", PVal.tree []), ("trainer", PVal.tree []), ("typo_key", PVal.bool true)]
    "out" false false false [] ["tok"]
    [("iterator", PVal.tree []), ("trainer", PVal.tree []), ("typo_key", PVal.bool true)]
    [("iterator", PVal.tree []), ("trainer", PVal.tree []), ("typo_key", PVal.bool true)]
    [("typo_key", PVal.bool true)]
    [("train", ["x"])] (PVal.tree []) (PVal.tree []) ["x"] ([], PVal.tree []) false
    rfl rfl rfl rfl rfl rfl rfl rfl rfl

/-- C6: with `extend_vocab` set, if any requested vocab-creation split is
absent from the dataset collection the run fails with the
invalid-vocab-source error and the model carried by the error is the input
model itself — its vocabulary untouched; if every requested split is
present, the vocabulary persisted to the `vocabulary` directory is exactly
the bundle vocabulary extended (through the opaque extension collaborator,
receiving the configuration's `vocabulary` section) with precisely the
instances of the requested splits, in dataset order. -/
theorem c6_extend_vocab (c : Collab) (model : Model) (params : Params)
    (sd : String) (de dn : Bool) (p3 p4 : Params) (allDs : Datasets)
    (ns : List String)
    (hdir : (de && dn) = false)
    (hdfp : c.dfp (afterWarnPops params) = Except.ok (p3, allDs))
    (hdvc : dvcRequested p3 allDs = some (ns, p4)) :
    (ns.all (fun d => (lookupKey d allDs).isSome) = false →
        (fineTuneModel c model params sd de dn true).2 =
          Outcome.err Err.invalidVocabSource model)
    ∧ (ns.all (fun d => (lookupKey d allDs).isSome) = true →
        Event.saveVocabulary
          (c.extendFn (vocabSectionOf params) model.vocab (instancesFor ns allDs))
          ∈ (fineTuneModel c model params sd de dn true).1) := by
  constructor
  · intro hmiss
    have hvc := vocabCreationStep_invalid c.extendFn (vocabSectionOf params)
      model.vocab hdvc hmiss
    rw [fineTuneModel_of_setup_error (fineTuneSetup_vocab_error sd hdir hdfp hvc)]
  · intro hall
    have hvc := vocabCreationStep_valid c.extendFn (vocabSectionOf params)
      model.vocab hdvc hall
    obtain ⟨r, hr⟩ := fineTuneModel_trace c model params sd de dn true
    rw [hr]
    exact List.mem_append_left _ (save_mem_of_vc_ok sd hdir hdfp hvc)

/-- C6, witness: requesting the split `nope`, absent from a collection that
holds only `train`, fails with the invalid-vocab-source error and the model
attached to the error is the unmodified input model. -/
theorem c6_extend_vocab_witness :
    ((["nope"] : List String).all
        (fun d => (lookupKey d ([("train", ["x"])] : Datasets)).isSome) = false →
      (fineTuneModel (mkCollab (.ok []) [] [("train", ["x"])])
        ⟨["tok"], [("w", true)]⟩
        [("datasets_for_vocab_creation", PVal.strList ["nope"])]
        "out" false false true).2 =
        Outcome.err Err.invalidVocabSource ⟨["tok"], [("w", true)]⟩)
    ∧ ((["nope"] : List String).all
        (fun d => (lookupKey d ([("train", ["x"])] : Datasets)).isSome) = true →
      Event.saveVocabulary
        (extendConcat (vocabSectionOf [("datasets_for_vocab_creation", PVal.strList ["nope"])])
          ["tok"] (instancesFor ["nope"] [("train", ["x"])]))
        ∈ (fineTuneModel (mkCollab (.ok []) [] [("train", ["x"])])
            ⟨["tok"], [("w", true)]⟩
            [("datasets_for_vocab_creation", PVal.strList ["nope"])]
            "out" false false true).1) :=
  c6_extend_vocab (mkCollab (.ok []) [] [("train", ["x"])])
    ⟨["tok"], [("w", true)]⟩
    [("datasets_for_vocab_creation", PVal.strList ["nope"])]
    "out" false false
    [("datasets_for_vocab_creation", PVal.strList ["nope"])] [] [("train", ["x"])]
    ["nope"] rfl rfl rfl

/-- C10: a configuration containing `datasets_for_vocab_creation` whose
remaining keys are otherwise fully consumed fails the leftover-key check
(naming that key) before training when `extend_vocab` is off — the key is
only ever popped on the `extend_vocab` branch of line 187 — while the very
same configuration reaches training when `extend_vocab` is on. -/
theorem c10_dvc_key_flag_asymmetry (c : Collab) (model : Model) (params : Params)
    (sd : String) (de dn : Bool) (p3 : Params) (allDs : Datasets)
    (ns : List String) (iv trv : PVal) (trd : Dataset) (ngr : List String × PVal)
    (hdir : (de && dn) = false)
    (hdfp : c.dfp (afterWarnPops params) = Except.ok (p3, allDs))
    (hdvc : lookupKey "datasets_for_vocab_creation" p3 = some (PVal.strList ns))
    (hns : ns.all (fun d => (lookupKey d allDs).isSome) = true)
    (hiter : lookupKey "iterator" p3 = some iv)
    (htrv : lookupKey "trainer" p3 = some trv)
    (hng : popNoGrad trv = Except.ok ngr)
    (heot : lookupKey "evaluate_on_test" p3 = none)
    (htrain : lookupKey "train" allDs = some trd)
    (hrem : ((popKey "trainer" (popKey "iterator"
        (popKey "datasets_for_vocab_creation" p3).2).2).2).isEmpty = true) :
    (∃ ks m2, (fineTuneModel c model params sd de dn false).2
        = Outcome.err (Err.extraKeys ks) m2
      ∧ "datasets_for_vocab_creation" ∈ ks)
    ∧ Event.train ∉ (fineTuneModel c model params sd de dn false).1
    ∧ Event.train ∈ (fineTuneModel c model params sd de dn true).1 := by
  have hne1 : "trainer" ≠ "iterator" := by decide
  have hne2 : "evaluate_on_test" ≠ "trainer" := by decide
  have hne3 : "evaluate_on_test" ≠ "iterator" := by decide
  have hne4 : "datasets_for_vocab_creation" ≠ "trainer" := by decide
  have hne5 : "datasets_for_vocab_creation" ≠ "iterator" := by decide
  have hne6 : "iterator" ≠ "datasets_for_vocab_creation" := by decide
  have hne7 : "trainer" ≠ "datasets_for_vocab_creation" := by decide
  have hne8 : "evaluate_on_test" ≠ "datasets_for_vocab_creation" := by decide
  -- the run with extend_vocab off
  have hiterf : (popKey "iterator" p3).1 = some iv := by
    rw [popKey_fst]; exact hiter
  have htrf : (popKey "trainer" (popKey "iterator" p3).2).1 = some trv := by
    rw [popKey_fst, lookupKey_popKey_ne _ hne1]; exact htrv
  have heotf : popBoolKey "evaluate_on_test"
      (popKey "trainer" (popKey "iterator" p3).2).2
      = .ok (false, (popKey "trainer" (popKey "iterator" p3).2).2) := by
    apply popBoolKey_absent
    rw [lookupKey_popKey_ne _ hne2, lookupKey_popKey_ne _ hne3]; exact heot
  have hdvcf : lookupKey "datasets_for_vocab_creation"
      (popKey "trainer" (popKey "iterator" p3).2).2 = some (PVal.strList ns) := by
    rw [lookupKey_popKey_ne _ hne4, lookupKey_popKey_ne _ hne5]; exact hdvc
  have hleftf : ((popKey "trainer" (popKey "iterator" p3).2).2).isEmpty = false :=
    isEmpty_false_of_lookup hdvcf
  have hsf := fineTuneSetup_eq sd hdir hdfp
    (vocabCreationStep_off c.extendFn (vocabSectionOf params) model.vocab p3 allDs)
    hiterf htrain htrf hng heotf
  rw [hleftf] at hsf
  simp only [Bool.false_eq_true, if_false] at hsf
  -- the run with extend_vocab on
  have hdvcR : dvcRequested p3 allDs
      = some (ns, (popKey "datasets_for_vocab_creation" p3).2) := by
    unfold dvcRequested
    rw [popKey_fst, hdvc]
  have hvct := vocabCreationStep_valid c.extendFn (vocabSectionOf params)
    model.vocab hdvcR hns
  have hitert : (popKey "iterator" (popKey "datasets_for_vocab_creation" p3).2).1
      = some iv := by
    rw [popKey_fst, lookupKey_popKey_ne _ hne6]; exact hiter
  have htrt : (popKey "trainer" (popKey "iterator"
      (popKey "datasets_for_vocab_creation" p3).2).2).1 = some trv := by
    rw [popKey_fst, lookupKey_popKey_ne _ hne1, lookupKey_popKey_ne _ hne7]; exact htrv
  have heott : popBoolKey "evaluate_on_test"
      (popKey "trainer" (popKey "iterator"
        (popKey "datasets_for_vocab_creation" p3).2).2).2
      = .ok (false, (popKey "trainer" (popKey "iterator"
        (popKey "datasets_for_vocab_creation" p3).2).2).2) := by
    apply popBoolKey_absent
    rw [lookupKey_popKey_ne _ hne2, lookupKey_popKey_ne _ hne3,
        lookupKey_popKey_ne _ hne8]
    exact heot
  have hst := fineTuneSetup_eq sd hdir hdfp hvct hitert htrain htrt hng heott
  rw [hrem] at hst
  simp only [if_true] at hst
  refine ⟨⟨_, _, by rw [fineTuneModel_of_setup_error hsf],
      mem_keys_of_lookup hdvcf⟩, ?_, train_mem_of_setup_ok hst⟩
  intro hmem
  rw [fineTuneModel_of_setup_error hsf] at hmem
  have hmem2 : Event.train ∈ (fineTuneSetup c model params sd de dn false).1 := by
    rw [hsf]
    exact hmem
  exact absurd (mem_fineTuneSetup hmem2) (by simp [Event.isSetup])

/-- C10, witness: the configuration with exactly
`datasets_for_vocab_creation`, `iterator` and `trainer`: rejected before
training with `extend_vocab` off, trained with it on. -/
theorem c10_dvc_key_flag_asymmetry_witness :
    ((∃ ks m2, (fineTuneModel (mkCollab (.ok []) [] [("train", ["x"])])
        ⟨["tok"], [("w", true)]⟩
        [("datasets_for_vocab_creation", PVal.strList ["train"]),
         ("iterator", PVal.tree []), ("trainer", PVal.tree [])]
        "out" false false false).2
        = Outcome.err (Err.extraKeys ks) m2
      ∧ "datasets_for_vocab_creation" ∈ ks)
    ∧ Event.train ∉ (fineTuneModel (mkCollab (.ok []) [] [("train", ["x"])])
        ⟨["tok"], [("w", true)]⟩
        [("datasets_for_vocab_creation", PVal.strList ["train"]),
         ("iterator", PVal.tree []), ("trainer", PVal.tree [])]
        "out" false false false).1
    ∧ Event.train ∈ (fineTuneModel (mkCollab (.ok []) [] [("train", ["x"])])
        ⟨["tok"], [("w", true)]⟩
        [("datasets_for_vocab_creation", PVal.strList ["train"]),
         ("iterator", PVal.tree []), ("trainer", PVal.tree [])]
        "out" false false true).1) :=
  c10_dvc_key_flag_asymmetry (mkCollab (.ok []) [] [("train", ["x"])])
    ⟨["tok"], [("w", true)]⟩
    [("datasets_for_vocab_creation", PVal.strList ["train"]),
     ("iterator", PVal.tree []), ("trainer", PVal.tree [])]
    "out" false false
    [("datasets_for_vocab_creation", PVal.strList ["train"]),
     ("iterator", PVal.tree []), ("trainer", PVal.tree [])]
    [("train", ["x"])] ["train"] (PVal.tree []) (PVal.tree []) ["x"] ([], PVal.tree [])
    rfl rfl rfl rfl rfl rfl rfl rfl rfl rfl

/-- C7, counterexample: a configuration whose `vocabulary` section does
specify an explicit `directory_path` — with the empty string as value — is
falsy under the `if` of line 179, so no warning is emitted, refuting
"a warning is emitted exactly once" for every configuration specifying the
setting. -/
theorem c7_vocab_directory_counterexample :
    pvalGet (vocabSectionOf [("vocabulary", PVal.tree [("directory_path", PVal.str "")])])
        "directory_path" = some (PVal.str "")
    ∧ (fineTuneModel (mkCollab (.ok []) [] [("train", ["x"])]) ⟨["tok"], [("w", true)]⟩
        [("vocabulary", PVal.tree [("directory_path", PVal.str "")])]
        "out" false false false).1.countP Event.isWarnVocab = 0 :=
  ⟨rfl, rfl⟩

/-- C7, amended: for every configuration whose `vocabulary` section carries
a truthy (in particular any non-empty) `directory_path`, in a run passing
the serialization-directory precheck the ignore warning is emitted exactly
once, and no vocabulary is ever loaded from that path: every vocabulary the
run persists is the bundle's vocabulary, possibly extended in place through
the extension collaborator. -/
theorem c7_vocab_directory_amended (c : Collab) (model : Model) (params : Params)
    (sd : String) (de dn ev : Bool)
    (hv : optTruthy (pvalGet (vocabSectionOf params) "directory_path") = true)
    (hdir : (de && dn) = false) :
    (fineTuneModel c model params sd de dn ev).1.countP Event.isWarnVocab = 1
    ∧ (∀ v2, Event.saveVocabulary v2 ∈ (fineTuneModel c model params sd de dn ev).1 →
        v2 = model.vocab ∨ ∃ ins, v2 = c.extendFn (vocabSectionOf params) model.vocab ins) := by
  constructor
  · rw [countP_fineTuneModel_warn c model params sd de dn ev Event.isWarnVocab
      (fun e he => by cases e <;> simp_all [Event.isWarnVocab])]
    rw [startup_eq params sd hdir]
    dsimp only
    unfold startupEvents
    rw [hv]
    rw [List.countP_append, List.countP_append]
    have h4 : List.countP Event.isWarnVocab [Event.prepareEnvironment, Event.makedirs sd,
        Event.prepareGlobalLogging, Event.writeConfigFile params] = 0 := rfl
    have hVlist : List.countP Event.isWarnVocab
        (if true = true then [Event.warnIgnoringVocabDirectoryPath] else []) = 1 := rfl
    rw [h4, hVlist]
    cases hMc : optTruthy (popKey "model" params).1
    · have hm0 : List.countP Event.isWarnVocab
          (if false = true then [Event.warnIgnoringModelSection] else []) = 0 := rfl
      rw [hm0]
    · have hm0 : List.countP Event.isWarnVocab
          (if true = true then [Event.warnIgnoringModelSection] else []) = 0 := rfl
      rw [hm0]
  · intro v2 hmem
    exact save_value_fineTuneModel hmem

/-- C7, witness for the amended theorem: a non-empty `directory_path`. -/
theorem c7_vocab_directory_amended_witness :
    (fineTuneModel (mkCollab (.ok []) [] [("train", ["x"])]) ⟨["tok"], [("w", true)]⟩
        [("vocabulary", PVal.tree [("directory_path", PVal.str "/tmp/vocab")])]
        "out" false false false).1.countP Event.isWarnVocab = 1
    ∧ (∀ v2, Event.saveVocabulary v2 ∈
        (fineTuneModel (mkCollab (.ok []) [] [("train", ["x"])]) ⟨["tok"], [("w", true)]⟩
          [("vocabulary", PVal.tree [("directory_path", PVal.str "/tmp/vocab")])]
          "out" false false false).1 →
        v2 = (⟨["tok"], [("w", true)]⟩ : Model).vocab
        ∨ ∃ ins, v2 = (mkCollab (.ok []) [] [("train", ["x"])]).extendFn
            (vocabSectionOf [("vocabulary", PVal.tree [("directory_path", PVal.str "/tmp/vocab")])])
            (⟨["tok"], [("w", true)]⟩ : Model).vocab ins) :=
  c7_vocab_directory_amended (mkCollab (.ok []) [] [("train", ["x"])])
    ⟨["tok"], [("w", true)]⟩
    [("vocabulary", PVal.tree [("directory_path", PVal.str "/tmp/vocab")])]
    "out" false false false rfl rfl

/-- C8, counterexample: a configuration containing a `model` section whose
value is the empty tree is falsy under the `if` of line 174, so the ignore
warning is not emitted, refuting "a warning is emitted exactly once" for
every configuration containing a `model` section. -/
theorem c8_model_section_counterexample :
    lookupKey "model" [("model", PVal.tree [])] = some (PVal.tree [])
    ∧ (fineTuneModel (mkCollab (.ok []) [] [("train", ["x"])]) ⟨["tok"], [("w", true)]⟩
        [("model", PVal.tree [])] "out" false false false).1.countP
        Event.isWarnModel = 0 :=
  ⟨rfl, rfl⟩

/-- C8, amended: for every configuration containing a truthy (in particular
any non-empty) `model` section, in a run passing the
serialization-directory precheck the ignore warning is emitted exactly
once, and the section never influences the workflow's outcome: deleting the
`model` section from the configuration leaves the outcome — the resulting
model and metrics, or the error — unchanged. -/
theorem c8_model_section_amended (c : Collab) (model : Model) (params : Params)
    (sd : String) (de dn ev : Bool) (v : PVal)
    (hnd : (params.map Prod.fst).Nodup)
    (hM : lookupKey "model" params = some v)
    (hv : v.truthy = true)
    (hdir : (de && dn) = false) :
    (fineTuneModel c model params sd de dn ev).1.countP Event.isWarnModel = 1
    ∧ (fineTuneModel c model params sd de dn ev).2
        = (fineTuneModel c model ((popKey "model" params).2) sd de dn ev).2 := by
  have hpopM : popKey "model" params = (some v, (popKey "model" params).2) := by
    rw [← hM, ← popKey_fst]
  constructor
  · rw [countP_fineTuneModel_warn c model params sd de dn ev Event.isWarnModel
      (fun e he => by cases e <;> simp_all [Event.isWarnModel])]
    rw [startup_eq params sd hdir]
    dsimp only
    unfold startupEvents
    rw [popKey_fst, hM]
    have hMtrue : optTruthy (some v) = true := by simp [optTruthy, hv]
    simp only [hMtrue]
    rw [List.countP_append, List.countP_append]
    have h4 : List.countP Event.isWarnModel [Event.prepareEnvironment, Event.makedirs sd,
        Event.prepareGlobalLogging, Event.writeConfigFile params] = 0 := rfl
    have hMlist : List.countP Event.isWarnModel
        (if True then [Event.warnIgnoringModelSection] else []) = 1 := rfl
    rw [h4, hMlist]
    cases hVc : optTruthy (pvalGet (vocabSectionOf params) "directory_path")
    · have hv0 : List.countP Event.isWarnModel
          (if false = true then [Event.warnIgnoringVocabDirectoryPath] else []) = 0 := rfl
      rw [hv0]
    · have hv0 : List.countP Event.isWarnModel
          (if true = true then [Event.warnIgnoringVocabDirectoryPath] else []) = 0 := rfl
      rw [hv0]
  · have hq : lookupKey "model" ((popKey "model" params).2) = none :=
      lookupKey_popKey_self hnd
    have hpopQ : popKey "model" ((popKey "model" params).2)
        = (none, (popKey "model" params).2) := popKey_none hq
    have hvs : vocabSectionOf ((popKey "model" params).2) = vocabSectionOf params := by
      unfold vocabSectionOf
      rw [hpopQ, hpopM]
    have hwp : afterWarnPops ((popKey "model" params).2) = afterWarnPops params := by
      unfold afterWarnPops
      rw [hpopQ, hpopM]
    unfold fineTuneModel fineTuneSetup
    rw [startup_eq params sd hdir, startup_eq ((popKey "model" params).2) sd hdir]
    dsimp only
    rw [hvs, hwp]
    cases hso : (setupAfterStartup c model ev (vocabSectionOf params)
        (afterWarnPops params)).2
    · rfl
    · rfl

/-- C8, witness for the amended theorem: a boolean-true `model` section among
`iterator` and `trainer`. -/
theorem c8_model_section_amended_witness :
    (fineTuneModel (mkCollab (.ok []) [] [("train", ["x"])]) ⟨["tok"], [("w", true)]⟩
        [("model", PVal.bool true), ("iterator", PVal.tree []), ("trainer", PVal.tree [])]
        "out" false false false).1.countP Event.isWarnModel = 1
    ∧ (fineTuneModel (mkCollab (.ok []) [] [("train", ["x"])]) ⟨["tok"], [("w", true)]⟩
        [("model", PVal.bool true), ("iterator", PVal.tree []), ("trainer", PVal.tree [])]
        "out" false false false).2
      = (fineTuneModel (mkCollab (.ok []) [] [("train", ["x"])]) ⟨["tok"], [("w", true)]⟩
        [("iterator", PVal.tree []), ("trainer", PVal.tree [])]
        "out" false false false).2 :=
  c8_model_section_amended (mkCollab (.ok []) [] [("train", ["x"])])
    ⟨["tok"], [("w", true)]⟩
    [("model", PVal.bool true), ("iterator", PVal.tree []), ("trainer", PVal.tree [])]
    "out" false false false (PVal.bool true) (by decide) rfl rfl rfl

/-- C3, witness: a collaborator whose dataset construction fails; the run
errors with the dataset failure while the snapshot prefix is on the trace. -/
theorem c3_snapshot_witness :
    (failDfpCollab.dfp (afterWarnPops []) = Except.error ())
    ∧ (fineTuneModel failDfpCollab ⟨[], []⟩ [] "out" false false false).2 =
        Outcome.err Err.datasetsFailed ⟨[], []⟩ :=
  ⟨rfl, (c3_snapshot_before_datasets failDfpCollab ⟨[], []⟩ [] "out" false false).2.2 rfl⟩

end FineTune
